import Mathlib

/-!
Verification development for the monad-mega-bot trading bot.

The definitions below are a shallow embedding of the bot's swap pipeline
(src/utils/monadIntegration.js), its token scanner
(src/utils/directTokenScanner.js), its wallet store (WalletManager) and the
token resolver (src/utils/telegramCommands.js `_getTokenAddress`), together
with models of the ethers.js string/number helpers the code calls
(parseUnits, formatUnits) and of the JS primitives it uses (parseFloat,
toUpperCase/toLowerCase, BigInt arithmetic).

On-chain and RPC interactions are modelled by environment records: every
awaited external call of a pipeline reads its outcome from an environment
field (an Option models a call that can reject).  Each pipeline returns its
result together with a trace of events (progress stages, network reads,
submitted transactions), so that statements such as "the swap transaction is
never submitted" or "exactly one approve is submitted" are about the trace.
-/

namespace MonadBot

/-! ### JS / ethers string and number primitives -/

/-- Value of a hexadecimal digit character, if it is one. -/
def hexDigitVal (c : Char) : Option Nat :=
  if '0' ≤ c ∧ c ≤ '9' then some (c.toNat - '0'.toNat)
  else if 'a' ≤ c ∧ c ≤ 'f' then some (c.toNat - 'a'.toNat + 10)
  else if 'A' ≤ c ∧ c ≤ 'F' then some (c.toNat - 'A'.toNat + 10)
  else none

def isHexDigit (c : Char) : Bool := (hexDigitVal c).isSome

/-- Model of JS String.prototype.toUpperCase restricted to the ASCII data
this code base compares (token symbols, currency symbols). -/
def upperStr (s : String) : String := ⟨s.data.map Char.toUpper⟩

/-- Model of JS String.prototype.toLowerCase restricted to ASCII data
(addresses and hex strings). -/
def lowerStr (s : String) : String := ⟨s.data.map Char.toLower⟩

theorem upperStr_length (s : String) : (upperStr s).length = s.length :=
  List.length_map s.data Char.toUpper

theorem lowerStr_length (s : String) : (lowerStr s).length = s.length :=
  List.length_map s.data Char.toLower

/-- Numeric value of a digit string (most significant first). -/
def digitsToNat (l : List Char) : Nat :=
  l.foldl (fun acc c => acc * 10 + (c.toNat - '0'.toNat)) 0

/-- Modelled from ethers v6 `parseUnits(value, decimals)`: the value must
match an optional minus sign, digits, an optional dot and fraction digits,
with at least one digit present; a fraction longer than `decimals` digits is
rejected ("too many decimals").  Returns the scaled integer, `none` models
the thrown exception. -/
def parseUnits (value : String) (decimals : Nat) : Option Int :=
  let (neg, rest) :=
    match value.data with
    | '-' :: r => (true, r)
    | r => (false, r)
  let intPart := rest.takeWhile Char.isDigit
  let rest2 := rest.dropWhile Char.isDigit
  let fracOpt : Option (List Char) :=
    match rest2 with
    | [] => some []
    | '.' :: fr => if fr.all Char.isDigit then some fr else none
    | _ => none
  match fracOpt with
  | none => none
  | some frac =>
    if intPart.length + frac.length = 0 then none
    else if decimals < frac.length then none
    else
      let mag : Nat :=
        digitsToNat intPart * 10 ^ decimals +
          digitsToNat frac * 10 ^ (decimals - frac.length)
      some (if neg then -(mag : Int) else (mag : Int))

/-- Modelled from ethers v6 `parseEther(value)` = `parseUnits(value, 18)`. -/
def parseEther (value : String) : Option Int := parseUnits value 18

def stripTrailingZeros (l : List Char) : List Char :=
  (l.reverse.dropWhile (· = '0')).reverse

def padLeftZeros (l : List Char) (w : Nat) : List Char :=
  List.replicate (w - l.length) '0' ++ l

/-- Modelled from ethers v6 `formatUnits(value, decimals)` on the
non-negative balances this code formats: decimal-shift the integer and keep
at least one fraction digit (`formatUnits 0 18 = "0.0"`). -/
def formatUnits (value : Nat) (decimals : Nat) : String :=
  let whole := value / 10 ^ decimals
  let frac := value % 10 ^ decimals
  let fracStr := stripTrailingZeros (padLeftZeros (toString frac).data decimals)
  let fracStr := if fracStr.isEmpty then ['0'] else fracStr
  ⟨(toString whole).data ++ '.' :: fracStr⟩

/-- Model of JS `parseFloat` on the decimal strings this code produces:
parse an optional sign, integer digits and an optional fraction from the
front of the string; `none` models `NaN`. -/
def parseFloatQ (s : String) : Option ℚ :=
  let (neg, rest) :=
    match s.data with
    | '-' :: r => (true, r)
    | '+' :: r => (false, r)
    | r => (false, r)
  let intPart := rest.takeWhile Char.isDigit
  let rest2 := rest.dropWhile Char.isDigit
  let frac :=
    match rest2 with
    | '.' :: fr => fr.takeWhile Char.isDigit
    | _ => []
  if intPart.isEmpty ∧ frac.isEmpty then none
  else
    let q : ℚ := (digitsToNat intPart : ℚ) + (digitsToNat frac : ℚ) / (10 ^ frac.length : ℚ)
    some (if neg then -q else q)

/-! ### Network configuration (src/config/index.js) -/

structure TokenConfig where
  address : String
  symbol : String
  name : String
  decimals : Nat
  deriving Repr, DecidableEq

structure NetworkConfig where
  name : String
  chainId : Nat
  nativeCurrency : String
  blockExplorerUrl : String
  router : String
  factory : String
  weth : String
  tokens : List TokenConfig
  deriving Repr, DecidableEq

/-- Source: `NETWORKS.MONAD` in src/config/index.js. -/
def monadNetwork : NetworkConfig :=
  { name := "Monad Testnet"
    chainId := 10143
    nativeCurrency := "MON"
    blockExplorerUrl := "https://testnet.monadexplorer.com"
    router := "0xfb8e1c3b833f9e67a71c859a132cf783b645e436"
    factory := "0x733e88f248b742db6c14c0b1713af5ad7fdd59d0"
    weth := "0x760AfE86e5de5fa0Ee542fc7B7B713e1c5425701"
    tokens :=
      [ { address := "0xB5a30b0FDc5EA94A52fDc42e3E9760Cb8449Fb37"
          symbol := "WETH", name := "Wrapped Ethereum", decimals := 18 }
      , { address := "0xcf5a6076cfa32686c0Df13aBaDa2b40dec133F1d"
          symbol := "WBTC", name := "Wrapped Bitcoin", decimals := 18 }
      , { address := "0xf817257fed379853cDe0fa4F97AB987181B1E5Ea"
          symbol := "USDC", name := "USD Coin", decimals := 6 }
      , { address := "0x88b8E2161DEDC77EF4ab7585569D2415a1C1055D"
          symbol := "USDT", name := "Tether USD", decimals := 6 }
      , { address := "0x5387C85A4965769f6B0Df430638a1388493486F1"
          symbol := "WSOL", name := "Wrapped Solana", decimals := 18 } ] }

/-- Model of JS String.prototype.startsWith on character lists. -/
def jsStartsWith : List Char → List Char → Bool
  | _, [] => true
  | [], _ :: _ => false
  | c :: cs, p :: ps => c == p && jsStartsWith cs ps

/-! ### Token resolver (src/utils/telegramCommands.js `_getTokenAddress`) -/

/-- Source: `_getTokenAddress(tokenSymbolOrAddress, network)` in
src/utils/telegramCommands.js lines 380-411.  The address guard of the
source is literally `startsWith('0x') && length === 42`. -/
def getTokenAddress (net : NetworkConfig) (s : String) : String :=
  if jsStartsWith s.data ['0', 'x'] && s.length == 42 then s
  else if upperStr s = net.nativeCurrency then net.weth
  else
    match net.tokens.find? (fun t => decide (upperStr t.symbol = upperStr s)) with
    | some t => t.address
    | none => s

/-- A 20-byte hex address literal: 0x followed by exactly 40 hex digits. -/
def isHexAddress (s : String) : Bool :=
  jsStartsWith s.data ['0', 'x'] && s.length == 42 && (s.data.drop 2).all isHexDigit

/-- Modelled from the spec: the resolution order claim C8 states — return
the input unchanged if it matches the 20-byte hex address format; else the
wrapped-native address if the input case-insensitively equals the native
currency symbol; else the configured token's address on a case-insensitive
symbol match; else the input unchanged. -/
def resolveSpec (net : NetworkConfig) (s : String) : String :=
  if isHexAddress s then s
  else if upperStr s = upperStr net.nativeCurrency then net.weth
  else
    match net.tokens.find? (fun t => decide (upperStr t.symbol = upperStr s)) with
    | some t => t.address
    | none => s

/-! ### Token scanner (src/utils/directTokenScanner.js and
`scanAllTokens` in src/utils/monadIntegration.js) -/

/-- Response of one token contract to the probe bundle
`balanceOf / decimals / symbol / name` issued by `getTokenDetails`. -/
structure TokenProbe where
  balance : Nat
  decimals : Nat
  symbol : String
  name : String
  deriving Repr, DecidableEq

/-- The common token-balance shape built by the scanner. -/
structure TokenDetails where
  address : String
  symbol : String
  name : String
  decimals : Nat
  raw : Nat
  formatted : String
  deriving Repr, DecidableEq

/-- Source: `DirectTokenScanner.getTokenDetails(tokenAddress)` — probe the
contract; on any error return null (`none`), otherwise build the token
record with `formatted = ethers.formatUnits(balance, decimals)`. -/
def getTokenDetails (probe : String → Option TokenProbe) (tokenAddress : String) :
    Option TokenDetails :=
  match probe tokenAddress with
  | none => none
  | some p =>
    some { address := tokenAddress
           symbol := p.symbol
           name := p.name
           decimals := p.decimals
           raw := p.balance
           formatted := formatUnits p.balance p.decimals }

/-- Source: `DirectTokenScanner.scanCommonTokens(tokenAddresses)` — probe
every address and filter out the null results. -/
def scanCommonTokens (probe : String → Option TokenProbe) (tokenAddresses : List String) :
    List TokenDetails :=
  ((tokenAddresses.map (getTokenDetails probe)).filter Option.isSome).filterMap id

/-- One `getLogs` response entry: the emitting contract address and the
indexed topics of the log. -/
structure LogEntry where
  address : String
  topics : List String
  deriving Repr, DecidableEq

/-- Parameters of the `getLogs` request issued by `scanRecentTransactions`. -/
structure GetLogsRequest where
  fromBlock : Nat
  topic0 : String
  deriving Repr, DecidableEq

/-- Stand-in for `ethers.id`, the keccak-256 hash of a string (injective
tagging; the hash itself is external to the repository). -/
def ethersId (s : String) : String := "keccak256(" ++ s ++ ")"

def transferEventSignature : String := "Transfer(address,address,uint256)"

/-- Source: `ethers.getAddress('0x' + topics[i].slice(26))`, lowercased by
the caller before comparison.  A malformed topic makes `getAddress` throw,
modelled as `none`; the checksum casing `getAddress` applies is erased by
the subsequent `toLowerCase`, so the model returns the lowercased hex
directly. -/
def addressFromTopic (topic : String) : Option String :=
  let t : String := ⟨'0' :: 'x' :: topic.data.drop 26⟩
  if isHexAddress t then some (lowerStr t) else none

/-- Insertion into a JS `Set` keeps first-occurrence order. -/
def insertAbsent (acc : List String) (a : String) : List String :=
  if a ∈ acc then acc else acc ++ [a]

/-- Environment of one scanner run: provider state and per-contract
behaviour.  `likely a = true` models that contract `a` answers both
`decimals()` and `symbol()` without reverting (`isLikelyToken`). -/
structure ScanEnv where
  walletAddress : String
  currentBlock : Nat
  logs : List LogEntry
  likely : String → Bool
  probe : String → Option TokenProbe
  blockVision : Option (List TokenDetails)
  directScanOk : Bool
  lastResortProbe : String → Option TokenProbe

/-- Source: `DirectTokenScanner.isLikelyToken(address)` — true exactly when
the minimal-ABI calls `decimals()` and `symbol()` both succeed. -/
def isLikelyToken (env : ScanEnv) (address : String) : Bool :=
  env.likely address

/-- Source: `DirectTokenScanner.scanRecentTransactions(blockCount)`.
Returns the discovered token details together with the `getLogs` request it
issued (fromBlock = max(1, currentBlock - blockCount), topic0 = the
Transfer event signature hash). -/
def scanRecentTransactions (env : ScanEnv) (blockCount : Nat) :
    List TokenDetails × GetLogsRequest :=
  let fromBlock := max 1 (env.currentBlock - blockCount)
  let request : GetLogsRequest :=
    { fromBlock := fromBlock, topic0 := ethersId transferEventSignature }
  let involved : List String := env.logs.filterMap (fun log =>
    if 3 ≤ log.topics.length then
      match addressFromTopic (log.topics.getD 1 "") with
      | none => none
      | some f =>
        match addressFromTopic (log.topics.getD 2 "") with
        | none => none
        | some t =>
          if lowerStr f = lowerStr env.walletAddress ∨
             lowerStr t = lowerStr env.walletAddress then
            some (lowerStr log.address)
          else none
    else none)
  let potentialTokens : List String := involved.foldl insertAbsent []
  let tokenDetails : List TokenDetails := potentialTokens.filterMap (fun a =>
    if isLikelyToken env a then getTokenDetails env.probe a else none)
  (tokenDetails, request)

/-- Events recorded by a `scanAllTokens` run. -/
inductive ScanEvent where
  | blockVisionUsed
  | txLogScan (request : GetLogsRequest)
  | lastResortScan
  deriving Repr, DecidableEq

/-- Source: the hardcoded `popularTokens` list in `scanAllTokens`
(src/utils/monadIntegration.js lines 155-162). -/
def popularTokens : List String :=
  [ "0xB5a30b0FDc5EA94A52fDc42e3E9760Cb8449Fb37"
  , "0xcf5a6076cfa32686c0Df13aBaDa2b40dec133F1d"
  , "0xf817257fed379853cDe0fa4F97AB987181B1E5Ea"
  , "0x88b8E2161DEDC77EF4ab7585569D2415a1C1055D"
  , "0x5387C85A4965769f6B0Df430638a1388493486F1" ]

/-- The balance filter of `scanAllTokens`:
`parseFloat(token.balance.formatted) > 0`. -/
def balancePositive (t : TokenDetails) : Bool :=
  match parseFloatQ t.formatted with
  | some q => decide (0 < q)
  | none => false

/-- Source: the last-resort branch of `scanAllTokens`
(src/utils/monadIntegration.js lines 209-261): probe the configured tokens
directly and keep the successes.  No zero-balance filter is applied on this
path. -/
def lastResortScan (env : ScanEnv) (knownTokenAddresses : List String) :
    List TokenDetails :=
  (knownTokenAddresses.map (getTokenDetails env.lastResortProbe)).filterMap id

/-- Source: `MonadIntegration.scanAllTokens(includeZeroBalances)`
(src/utils/monadIntegration.js lines 110-262): tier 1 BlockVision result is
returned unchanged when non-empty; otherwise the direct scanner probes the
configured and popular tokens, runs the transaction-log tier when fewer
than 5 tokens were found or a zero-balance-inclusive scan was requested,
and applies the zero-balance filter; if the direct scanner is unavailable
the last-resort configured-token probe result is returned unfiltered. -/
def scanAllTokens (env : ScanEnv) (includeZeroBalances : Bool) :
    List TokenDetails × List ScanEvent :=
  match env.blockVision with
  | some formattedTokens =>
    if formattedTokens.length > 0 then (formattedTokens, [.blockVisionUsed])
    else scanAllTokensDirect env includeZeroBalances
  | none => scanAllTokensDirect env includeZeroBalances
where
  scanAllTokensDirect (env : ScanEnv) (includeZeroBalances : Bool) :
      List TokenDetails × List ScanEvent :=
    let knownTokenAddresses := monadNetwork.tokens.map (·.address)
    if env.directScanOk then
      let knownTokens := scanCommonTokens env.probe knownTokenAddresses
      let additionalTokens := popularTokens.filter (fun addr =>
        ¬ knownTokenAddresses.any (fun known => lowerStr known = lowerStr addr))
      let popularResults := scanCommonTokens env.probe additionalTokens
      let allTokens := knownTokens ++ popularResults
      let (allTokens, events) :=
        if allTokens.length < 5 ∨ includeZeroBalances = true then
          let (txTokens, request) := scanRecentTransactions env 2000
          let newTxTokens := txTokens.filter (fun txToken =>
            ¬ allTokens.any (fun existing =>
              lowerStr existing.address = lowerStr txToken.address))
          (allTokens ++ newTxTokens, [ScanEvent.txLogScan request])
        else (allTokens, [])
      let allTokens :=
        if includeZeroBalances then allTokens
        else allTokens.filter balancePositive
      (allTokens, events)
    else
      (lastResortScan env knownTokenAddresses, [.lastResortScan])

/-! ### Swap pipeline (src/utils/monadIntegration.js) -/

/-- Modelled from ethers.isAddress on the non-checksummed inputs this
pipeline receives (the checksum validation of mixed-case inputs is erased
before every comparison in the source). -/
def ethersIsAddress (s : String) : Bool := isHexAddress s

/-- One typed error per distinct throw site of the swap pipeline. -/
inductive SwapErr where
  | invalidTokenAddress
  | invalidAmountFormat
  | insufficientBalance
  | tokenReadFailed
  | approveFailed
  | quoteFailed
  | likelyToFail
  | submitFailed
  | txFailed
  deriving Repr, DecidableEq

/-- Events of a swap run: progress stages reported through
`updateProgress`, awaited provider/contract reads, and submitted
transactions. -/
inductive SwapEvent where
  | progress (stage : String)
  | callGetBalance
  | callTokenRead
  | callQuote
  | callEstimateGas
  | submitApprove (hash : String)
  | submitSwap (hash : String) (amountOutMin : Int)
  deriving Repr, DecidableEq

/-- Source: `calculatePriceImpact(amountIn, amountOut, decimals)`
(src/utils/monadIntegration.js lines 491-513); BigInt division truncates
toward zero, any thrown error yields 0. -/
def calculatePriceImpact (amountIn : Int) (amountOut : Nat) (decimals : Nat) : ℚ :=
  if decimals ≤ 18 then
    let adjustedOutput : Int := (amountOut : Int) * 10 ^ (18 - decimals)
    if 0 < adjustedOutput then
      if amountIn = 0 then 0
      else (Int.tdiv ((amountIn - adjustedOutput) * 10000) amountIn : ℚ) / 100
    else 0
  else 0

/-- Environment of one `swapMonadForToken` run: each field is the outcome
of the corresponding awaited external call. -/
structure NativeSwapEnv where
  balance : Nat
  tokenDetails : Option (String × Nat × String)
  quoteOut : Option Nat
  gasEstimate : Option Nat
  submitTx : Option String
  receiptStatus : Nat

/-- Receipt shape returned by a confirmed `swapMonadForToken`. -/
structure NativeSwapReceipt where
  hash : String
  status : String
  amountInRaw : Int
  amountOutRaw : Nat
  priceImpact : ℚ
  deriving DecidableEq

/-- Source: `MonadIntegration.swapMonadForToken(tokenAddress, amount,
slippage, progressCallback)` (src/utils/monadIntegration.js lines
298-481). -/
def swapMonadForToken (env : NativeSwapEnv) (tokenAddress amount : String)
    (slippage : ℚ) : Except SwapErr NativeSwapReceipt × List SwapEvent :=
  let ev0 : List SwapEvent := [.progress "INIT"]
  if ethersIsAddress tokenAddress = false then (.error .invalidTokenAddress, ev0)
  else
    match parseEther amount with
    | none => (.error .invalidAmountFormat, ev0)
    | some amountInWei =>
      let ev1 := ev0 ++ [.progress "AMOUNT", .progress "BALANCE", .callGetBalance]
      if (env.balance : Int) < amountInWei then (.error .insufficientBalance, ev1)
      else
        let tokenDecimals : Nat :=
          match env.tokenDetails with
          | some (_, d, _) => d
          | none => 18
        let ev2 := ev1 ++ [.progress "TOKEN", .callTokenRead, .progress "QUOTE", .callQuote]
        match env.quoteOut with
        | none => (.error .quoteFailed, ev2)
        | some amountOut =>
          let slippageBasisPoints : Int := Int.floor (slippage * 100)
          let amountOutMin : Int :=
            (amountOut : Int) - Int.tdiv ((amountOut : Int) * slippageBasisPoints) 10000
          let priceImpact := calculatePriceImpact amountInWei amountOut tokenDecimals
          let ev3 := ev2 ++ [.progress "SLIPPAGE", .progress "IMPACT",
                             .progress "GAS", .callEstimateGas]
          match env.gasEstimate with
          | none => (.error .likelyToFail, ev3)
          | some _ =>
            let ev4 := ev3 ++ [.progress "EXECUTE"]
            match env.submitTx with
            | none => (.error .submitFailed, ev4)
            | some h =>
              let ev5 := ev4 ++ [.submitSwap h amountOutMin,
                                 .progress "SUBMITTED", .progress "PENDING"]
              if env.receiptStatus = 1 then
                (.ok { hash := h, status := "SUCCESS", amountInRaw := amountInWei,
                       amountOutRaw := amountOut, priceImpact := priceImpact },
                 ev5 ++ [.progress "CONFIRMED"])
              else (.error .txFailed, ev5 ++ [.progress "FAILED"])

/-- Environment of one token-leg swap run (`swapTokenForMonad` or
`swapTokenForToken`). -/
structure TokenSwapEnv where
  fromTokenInfo : Option (Nat × String)
  toTokenInfo : Option (Nat × String)
  balance : Nat
  allowance : Nat
  approveRead : Option Nat
  approveTx : Option String
  quoteOut : Option Nat
  gasEstimate : Option Nat
  submitTx : Option String
  receiptStatus : Nat
  blockNumber : Nat

/-- Receipt shape returned by the token-leg swaps. -/
structure TokenSwapReceipt where
  hash : String
  blockNumber : Nat
  fromToken : String
  toToken : String
  status : String
  deriving Repr, DecidableEq

/-- Source: `MonadIntegration.approveToken(tokenAddress, amount)`
(src/utils/monadIntegration.js lines 267-288): re-read decimals, re-parse
the amount, submit the approve and wait; any error is rethrown as a single
approval failure. -/
def approveToken (env : TokenSwapEnv) (amount : String) :
    Except SwapErr String × List SwapEvent :=
  match env.approveRead with
  | none => (.error .approveFailed, [.callTokenRead])
  | some decimals =>
    match parseUnits amount decimals with
    | none => (.error .approveFailed, [.callTokenRead])
    | some _ =>
      match env.approveTx with
      | none => (.error .approveFailed, [.callTokenRead])
      | some h => (.ok h, [.callTokenRead, .submitApprove h])

/-- Source: `MonadIntegration.swapTokenForMonad(tokenAddress, amount,
slippage)` (src/utils/monadIntegration.js lines 572-670). -/
def swapTokenForMonad (env : TokenSwapEnv) (amount : String) (slippage : ℚ) :
    Except SwapErr TokenSwapReceipt × List SwapEvent :=
  match env.fromTokenInfo with
  | none => (.error .tokenReadFailed, [.callTokenRead])
  | some (decimals, symbol) =>
    match parseUnits amount decimals with
    | none => (.error .invalidAmountFormat, [.callTokenRead])
    | some amountInWei =>
      let ev1 : List SwapEvent := [.callTokenRead, .callTokenRead]
      if (env.balance : Int) < amountInWei then (.error .insufficientBalance, ev1)
      else
        let ev2 := ev1 ++ [.callTokenRead]
        let approveStep : Except SwapErr Unit × List SwapEvent :=
          if (env.allowance : Int) < amountInWei then
            match approveToken env amount with
            | (.error e, evA) => (.error e, ev2 ++ evA)
            | (.ok _, evA) => (.ok (), ev2 ++ evA)
          else (.ok (), ev2)
        match approveStep with
        | (.error e, ev3) => (.error e, ev3)
        | (.ok _, ev3) =>
          let ev4 := ev3 ++ [.callQuote]
          match env.quoteOut with
          | none => (.error .quoteFailed, ev4)
          | some amountOut =>
            let slippageBasisPoints : Int := Int.floor (slippage * 100)
            let amountOutMin : Int :=
              (amountOut : Int) - Int.tdiv ((amountOut : Int) * slippageBasisPoints) 10000
            let ev5 := ev4 ++ [.callEstimateGas]
            match env.gasEstimate with
            | none => (.error .likelyToFail, ev5)
            | some _ =>
              match env.submitTx with
              | none => (.error .submitFailed, ev5)
              | some h =>
                let ev6 := ev5 ++ [.submitSwap h amountOutMin]
                (.ok { hash := h, blockNumber := env.blockNumber,
                       fromToken := symbol, toToken := "MON",
                       status := if env.receiptStatus = 1 then "success" else "failed" },
                 ev6)

/-- Source: `MonadIntegration.swapTokenForToken(fromTokenAddress,
toTokenAddress, amount, slippage)` (src/utils/monadIntegration.js lines
675-792). -/
def swapTokenForToken (env : TokenSwapEnv) (amount : String) (slippage : ℚ) :
    Except SwapErr TokenSwapReceipt × List SwapEvent :=
  match env.fromTokenInfo with
  | none => (.error .tokenReadFailed, [.callTokenRead])
  | some (fromDecimals, fromSymbol) =>
    match parseUnits amount fromDecimals with
    | none => (.error .invalidAmountFormat, [.callTokenRead])
    | some amountInWei =>
      let ev1 : List SwapEvent := [.callTokenRead, .callTokenRead]
      match env.toTokenInfo with
      | none => (.error .tokenReadFailed, ev1)
      | some (_, toSymbol) =>
        let ev2 := ev1 ++ [.callTokenRead]
        if (env.balance : Int) < amountInWei then (.error .insufficientBalance, ev2)
        else
          let ev3 := ev2 ++ [.callTokenRead]
          let approveStep : Except SwapErr Unit × List SwapEvent :=
            if (env.allowance : Int) < amountInWei then
              match approveToken env amount with
              | (.error e, evA) => (.error e, ev3 ++ evA)
              | (.ok _, evA) => (.ok (), ev3 ++ evA)
            else (.ok (), ev3)
          match approveStep with
          | (.error e, ev4) => (.error e, ev4)
          | (.ok _, ev4) =>
            let ev5 := ev4 ++ [.callQuote]
            match env.quoteOut with
            | none => (.error .quoteFailed, ev5)
            | some amountOut =>
              let slippageBasisPoints : Int := Int.floor (slippage * 100)
              let amountOutMin : Int :=
                (amountOut : Int) - Int.tdiv ((amountOut : Int) * slippageBasisPoints) 10000
              let ev6 := ev5 ++ [.callEstimateGas]
              match env.gasEstimate with
              | none => (.error .likelyToFail, ev6)
              | some _ =>
                match env.submitTx with
                | none => (.error .submitFailed, ev6)
                | some h =>
                  let ev7 := ev6 ++ [.submitSwap h amountOutMin]
                  (.ok { hash := h, blockNumber := env.blockNumber,
                         fromToken := fromSymbol, toToken := toSymbol,
                         status := if env.receiptStatus = 1 then "success" else "failed" },
                   ev7)

/-! ### Wallet store (WalletManager in src/utils) -/

structure WalletRecord where
  encryptedPrivateKey : String
  address : String
  name : String
  deriving Repr, DecidableEq

/-- The three maps a `WalletManager` instance holds, as association lists:
`userWalletIds` (userId to wallet-id list), `wallets` (walletId to record)
and `walletOwners` (lowercased address to userId). -/
structure WalletManagerState where
  userWalletIds : List (String × List String)
  wallets : List (String × WalletRecord)
  walletOwners : List (String × String)
  deriving Repr, DecidableEq

def mapGet {α : Type} (m : List (String × α)) (k : String) : Option α :=
  (m.find? (fun p => p.1 == k)).map (·.2)

def mapSet {α : Type} (m : List (String × α)) (k : String) (v : α) :
    List (String × α) :=
  if m.any (fun p => p.1 == k) then
    m.map (fun p => if p.1 == k then (k, v) else p)
  else m ++ [(k, v)]

structure WalletDetails where
  walletId : String
  address : String
  name : String
  mnemonic : Option String
  deriving Repr, DecidableEq

/-- Source: `WalletManager.importWallet(userId, privateKey, walletName)`.
The `validate` oracle models `new ethers.Wallet(privateKey)`: it returns
the derived address for valid key material and `none` when the constructor
throws; `encrypt` models `_encryptPrivateKey` and `newWalletId` the fresh
`crypto.randomUUID()`.  The map writes of the source all happen after the
wallet construction, so the state is returned unchanged on failure. -/
def importWallet (validate : String → Option String) (encrypt : String → String)
    (newWalletId : String) (st : WalletManagerState)
    (userId privateKey walletName : String) :
    WalletManagerState × Except String WalletDetails :=
  match validate privateKey with
  | none => (st, .error "Invalid private key")
  | some address =>
    let st1 : WalletManagerState :=
      { wallets := mapSet st.wallets newWalletId
          { encryptedPrivateKey := encrypt privateKey
            address := address
            name := walletName }
        userWalletIds :=
          match mapGet st.userWalletIds userId with
          | none => mapSet st.userWalletIds userId [newWalletId]
          | some ids => mapSet st.userWalletIds userId (ids ++ [newWalletId])
        walletOwners := mapSet st.walletOwners (lowerStr address) userId }
    (st1, .ok { walletId := newWalletId, address := address,
                name := walletName, mnemonic := none })

/-! ### Private-key encryption (`_encryptPrivateKey` / `_decryptPrivateKey`)

The source calls Node's `crypto.createCipheriv('aes-256-cbc', key, iv)`:
CBC chaining with PKCS#7 padding over the AES-256 block permutation, a
fresh 16-byte initialization vector, and hex framing
`ivHex + ":" + cipherHex`.  The framing, the CBC chaining, the padding and
the hex codec are modelled concretely below; the AES block permutation
itself (and the SHA-256 key derivation, identical on both sides) stays an
abstract 16-byte block function pair `(E, D)` with `D (E b) = b`.
Plaintext keys are modelled as their UTF-8 byte sequences. -/

abbrev Byte := Fin 256

/-- Lowercase hex digit for a value below 16 (Node Buffer hex output). -/
def hexDigitChar (n : Nat) : Char :=
  if n < 10 then Char.ofNat ('0'.toNat + n) else Char.ofNat ('a'.toNat + (n - 10))

def byteToHex (b : Byte) : List Char :=
  [hexDigitChar (b.val / 16), hexDigitChar (b.val % 16)]

def bytesToHex (l : List Byte) : List Char := (l.map byteToHex).flatten

def hexPairToByte (c1 c2 : Char) : Option Byte :=
  match hexDigitVal c1 with
  | none => none
  | some hi =>
    match hexDigitVal c2 with
    | none => none
    | some lo =>
      if h : hi * 16 + lo < 256 then some ⟨hi * 16 + lo, h⟩ else none

def hexToBytes : List Char → Option (List Byte)
  | [] => some []
  | [_] => none
  | c1 :: c2 :: rest =>
    match hexPairToByte c1 c2 with
    | none => none
    | some b =>
      match hexToBytes rest with
      | none => none
      | some bs => some (b :: bs)

def xorByte (a b : Byte) : Byte :=
  ⟨a.val ^^^ b.val, by
    have h : a.val ^^^ b.val < 2 ^ 8 :=
      Nat.xor_lt_two_pow (show a.val < 2 ^ 8 by omega) (show b.val < 2 ^ 8 by omega)
    omega⟩

def xorBytes (a b : List Byte) : List Byte := List.zipWith xorByte a b

/-- PKCS#7 padding to the 16-byte AES block size. -/
def pkcs7Pad (l : List Byte) : List Byte :=
  let p := 16 - l.length % 16
  l ++ List.replicate p ⟨p, by omega⟩

/-- PKCS#7 unpadding; `none` models the bad-padding error thrown by
`decipher.final`. -/
def pkcs7Unpad (l : List Byte) : Option (List Byte) :=
  match l.getLast? with
  | none => none
  | some lastByte =>
    let p := lastByte.val
    if 1 ≤ p ∧ p ≤ 16 ∧ p ≤ l.length ∧
        (l.drop (l.length - p)).all (fun b => b.val == p) = true then
      some (l.take (l.length - p))
    else none

/-- Split a byte sequence into 16-byte chunks (the last chunk is shorter
when the length is not a multiple of 16); the fuel argument of the worker
bounds the recursion and always suffices when it is at least the list
length. -/
def chunk16Go : Nat → List Byte → List (List Byte)
  | _, [] => []
  | 0, l => [l]
  | fuel + 1, l => l.take 16 :: chunk16Go fuel (l.drop 16)

def chunk16 (l : List Byte) : List (List Byte) := chunk16Go l.length l

/-- CBC encryption over an abstract block function: each plaintext block is
xored with the previous ciphertext block (initially the initialization
vector) and passed through `E`. -/
def cbcEncBlocks (E : List Byte → List Byte) (prev : List Byte) :
    List (List Byte) → List (List Byte)
  | [] => []
  | b :: bs =>
    let c := E (xorBytes prev b)
    c :: cbcEncBlocks E c bs

/-- CBC decryption over an abstract block function. -/
def cbcDecBlocks (D : List Byte → List Byte) (prev : List Byte) :
    List (List Byte) → List (List Byte)
  | [] => []
  | c :: cs => xorBytes prev (D c) :: cbcDecBlocks D c cs

/-- Source: `WalletManager._encryptPrivateKey(privateKey)` — encrypt the
padded plaintext in CBC mode under the fresh initialization vector and
return `iv.toString('hex') + ':' + encrypted`. -/
def encryptPrivateKeyModel (E : List Byte → List Byte) (iv : List Byte)
    (privateKey : List Byte) : List Char :=
  bytesToHex iv ++ ':' ::
    bytesToHex (cbcEncBlocks E iv (chunk16 (pkcs7Pad privateKey))).flatten

/-- Source: `WalletManager._decryptPrivateKey(encryptedData)` — split on
the colon, hex-decode both parts, CBC-decrypt and unpad; `none` models any
thrown decryption error. -/
def splitOnChar (sep : Char) : List Char → List (List Char)
  | [] => [[]]
  | c :: rest =>
    match splitOnChar sep rest with
    | [] => [[c]]
    | p :: ps => if c = sep then [] :: p :: ps else (c :: p) :: ps

def decryptPrivateKeyModel (D : List Byte → List Byte) (encryptedData : List Char) :
    Option (List Byte) :=
  match splitOnChar ':' encryptedData with
  | ivHex :: encryptedHex :: _ =>
    match hexToBytes ivHex, hexToBytes encryptedHex with
    | some iv, some ct =>
      if iv.length = 16 then
        pkcs7Unpad (cbcDecBlocks D iv (chunk16 ct)).flatten
      else none
    | _, _ => none
  | _ => none

/-! ### Theorems -/

theorem upperStr_mon : upperStr "MON" = "MON" := by decide

theorem find_symbol_none_of_length42 (s : String) (h : (upperStr s).length = 42) :
    monadNetwork.tokens.find?
      (fun t => decide (upperStr t.symbol = upperStr s)) = none := by
  rw [List.find?_eq_none]
  intro t ht
  simp only [decide_eq_true_eq]
  intro heq
  have hl := congrArg String.length heq
  rw [h] at hl
  fin_cases ht <;> exact absurd hl (by decide)

/-- C8: for every input string, token resolution on the MONAD network
behaves as the spec's case analysis: unchanged for a 20-byte hex address,
the wrapped-native address for the native symbol (case-insensitively), the
configured address for a configured symbol (case-insensitively), and
unchanged otherwise; the resolver is a total function, so it never raises. -/
theorem getTokenAddress_follows_spec (s : String) :
    getTokenAddress monadNetwork s = resolveSpec monadNetwork s := by
  unfold getTokenAddress resolveSpec
  have hnat : upperStr monadNetwork.nativeCurrency = monadNetwork.nativeCurrency := by
    decide
  rw [hnat]
  by_cases hguard : (jsStartsWith s.data ['0', 'x'] && s.length == 42) = true
  · rw [if_pos hguard]
    by_cases hhex : isHexAddress s = true
    · rw [if_pos hhex]
    · rw [if_neg hhex]
      have hlen : s.length = 42 := by
        rcases Bool.and_eq_true _ _ |>.mp hguard with ⟨-, h2⟩
        exact beq_iff_eq.mp h2
      have hup : (upperStr s).length = 42 := by rw [upperStr_length]; exact hlen
      have hmon : ¬ upperStr s = monadNetwork.nativeCurrency := by
        intro h
        rw [h] at hup
        exact absurd hup (by decide)
      rw [if_neg hmon, find_symbol_none_of_length42 s hup]
  · have hhex : ¬ isHexAddress s = true := by
      intro h
      unfold isHexAddress at h
      rcases Bool.and_eq_true _ _ |>.mp h with ⟨h1, -⟩
      exact hguard h1
    rw [if_neg hguard, if_neg hhex]

/-- C7: per-token probe failures are isolated: `scanCommonTokens` is a
total function whose result contains exactly the details of the tokens
whose probe succeeded — a failed probe yields no entry (in particular no
entry carries its address) and is excluded rather than propagated. -/
theorem scanCommonTokens_exact (probe : String → Option TokenProbe)
    (tokenAddresses : List String) :
    (∀ d : TokenDetails,
        d ∈ scanCommonTokens probe tokenAddresses ↔
          ∃ a ∈ tokenAddresses, getTokenDetails probe a = some d) ∧
    (∀ a ∈ tokenAddresses, probe a = none →
        ∀ d ∈ scanCommonTokens probe tokenAddresses, d.address ≠ a) := by
  constructor
  · intro d
    simp only [scanCommonTokens, List.mem_filterMap, List.mem_filter, List.mem_map,
      id_eq, Option.isSome_iff_exists]
    constructor
    · rintro ⟨o, ⟨⟨a, ha, rfl⟩, -⟩, ho⟩
      exact ⟨a, ha, ho⟩
    · rintro ⟨a, ha, hd⟩
      exact ⟨some d, ⟨⟨a, ha, hd⟩, ⟨d, rfl⟩⟩, rfl⟩
  · intro a _ hnone d hd hda
    have hmem : ∃ a2 ∈ tokenAddresses, getTokenDetails probe a2 = some d := by
      simp only [scanCommonTokens, List.mem_filterMap, List.mem_filter, List.mem_map,
        id_eq, Option.isSome_iff_exists] at hd
      rcases hd with ⟨o, ⟨⟨a2, ha2, rfl⟩, -⟩, ho⟩
      exact ⟨a2, ha2, ho⟩
    rcases hmem with ⟨a2, _, hdet⟩
    unfold getTokenDetails at hdet
    rcases h2 : probe a2 with - | p
    · rw [h2] at hdet; cases hdet
    · rw [h2] at hdet
      cases hdet
      have ha2 : a2 = a := hda
      rw [ha2, hnone] at h2
      exact Option.noConfusion h2

/-- True exactly on swap-transaction submission events. -/
def isSwapSubmission : SwapEvent → Bool
  | .submitSwap _ _ => true
  | _ => false

/-- True exactly on approve-transaction submission events. -/
def isApproveSubmission : SwapEvent → Bool
  | .submitApprove _ => true
  | _ => false

/-- C2: in each of the three swap shapes, when the pre-submission gas
estimation call fails the swap transaction is never submitted (no
transaction hash is produced), the SUBMITTED stage is never reported, and
whenever the estimation call was actually reached the run aborts with the
likely-to-fail error. -/
theorem gas_estimation_failure_aborts
    (envN : NativeSwapEnv) (envT envTT : TokenSwapEnv)
    (ta amN amT amTT : String) (slN slT slTT : ℚ)
    (hgN : envN.gasEstimate = none) (hgT : envT.gasEstimate = none)
    (hgTT : envTT.gasEstimate = none) :
    ((swapMonadForToken envN ta amN slN).2.all (fun e => !(isSwapSubmission e)) = true ∧
      SwapEvent.progress "SUBMITTED" ∉ (swapMonadForToken envN ta amN slN).2 ∧
      (SwapEvent.callEstimateGas ∈ (swapMonadForToken envN ta amN slN).2 →
        (swapMonadForToken envN ta amN slN).1 = .error .likelyToFail)) ∧
    ((swapTokenForMonad envT amT slT).2.all (fun e => !(isSwapSubmission e)) = true ∧
      (SwapEvent.callEstimateGas ∈ (swapTokenForMonad envT amT slT).2 →
        (swapTokenForMonad envT amT slT).1 = .error .likelyToFail)) ∧
    ((swapTokenForToken envTT amTT slTT).2.all (fun e => !(isSwapSubmission e)) = true ∧
      (SwapEvent.callEstimateGas ∈ (swapTokenForToken envTT amTT slTT).2 →
        (swapTokenForToken envTT amTT slTT).1 = .error .likelyToFail)) := by
  refine ⟨?_, ?_, ?_⟩
  · unfold swapMonadForToken
    cases ha : ethersIsAddress ta
    · simp [ha, isSwapSubmission]
    · rcases hpe : parseEther amN with - | aw
      · simp [ha, hpe, isSwapSubmission]
      · by_cases hb : (envN.balance : Int) < aw
        · simp [ha, hpe, hb, isSwapSubmission]
        · rcases hq : envN.quoteOut with - | q
          · simp [ha, hpe, hb, hq, isSwapSubmission]
          · simp [ha, hpe, hb, hq, hgN, isSwapSubmission]
  · unfold swapTokenForMonad
    rcases hfi : envT.fromTokenInfo with - | ⟨d, sym⟩
    · simp [isSwapSubmission]
    · rcases hpe : parseUnits amT d with - | aw
      · simp [hpe, isSwapSubmission]
      · by_cases hb : (envT.balance : Int) < aw
        · simp [hpe, hb, isSwapSubmission]
        · by_cases hal : (envT.allowance : Int) < aw
          · unfold approveToken
            rcases har : envT.approveRead with - | d2
            · simp [hpe, hb, hal, har, isSwapSubmission]
            · rcases hp2 : parseUnits amT d2 with - | aw2
              · simp [hpe, hb, hal, har, hp2, isSwapSubmission]
              · rcases hat : envT.approveTx with - | ah
                · simp [hpe, hb, hal, har, hp2, hat, isSwapSubmission]
                · rcases hq : envT.quoteOut with - | q
                  · simp [hpe, hb, hal, har, hp2, hat, hq, isSwapSubmission,
                      isApproveSubmission]
                  · simp [hpe, hb, hal, har, hp2, hat, hq, hgT, isSwapSubmission,
                      isApproveSubmission]
          · rcases hq : envT.quoteOut with - | q
            · simp [hpe, hb, hal, hq, isSwapSubmission]
            · simp [hpe, hb, hal, hq, hgT, isSwapSubmission]
  · unfold swapTokenForToken
    rcases hfi : envTT.fromTokenInfo with - | ⟨d, sym⟩
    · simp [isSwapSubmission]
    · rcases hpe : parseUnits amTT d with - | aw
      · simp [hpe, isSwapSubmission]
      · rcases hti : envTT.toTokenInfo with - | ⟨d2, sym2⟩
        · simp [hpe, hti, isSwapSubmission]
        · by_cases hb : (envTT.balance : Int) < aw
          · simp [hpe, hti, hb, isSwapSubmission]
          · by_cases hal : (envTT.allowance : Int) < aw
            · unfold approveToken
              rcases har : envTT.approveRead with - | d3
              · simp [hpe, hti, hb, hal, har, isSwapSubmission]
              · rcases hp2 : parseUnits amTT d3 with - | aw2
                · simp [hpe, hti, hb, hal, har, hp2, isSwapSubmission]
                · rcases hat : envTT.approveTx with - | ah
                  · simp [hpe, hti, hb, hal, har, hp2, hat, isSwapSubmission]
                  · rcases hq : envTT.quoteOut with - | q
                    · simp [hpe, hti, hb, hal, har, hp2, hat, hq, isSwapSubmission]
                    · simp [hpe, hti, hb, hal, har, hp2, hat, hq, hgTT,
                        isSwapSubmission]
            · rcases hq : envTT.quoteOut with - | q
              · simp [hpe, hti, hb, hal, hq, isSwapSubmission]
              · simp [hpe, hti, hb, hal, hq, hgTT, isSwapSubmission]

theorem tdiv_nonneg_toNat (q : Nat) (b : Int) (hb : 0 ≤ b) :
    ((q : Int) * b).tdiv 10000 = ((q * b.toNat / 10000 : Nat) : Int) := by
  rcases Int.eq_ofNat_of_zero_le hb with ⟨n, rfl⟩
  have h1 : ((q : Int) * (n : Int)) = ((q * n : Nat) : Int) := by push_cast; ring
  have h2 : ((n : Int)).toNat = n := Int.toNat_natCast n
  rw [h1, h2]
  rfl

/-- The slippage formula of the claim: the quoted output minus the floor of
its slippage share, with `slippageBps = floor(slippagePercent * 100)`. -/
def claimedAmountOutMin (amountOut : Nat) (slippagePercent : ℚ) : Int :=
  (amountOut : Int) -
    ((amountOut * (⌊slippagePercent * 100⌋).toNat / 10000 : Nat) : Int)

/-- Environment of end-to-end scenario 1: a native→token swap of 1.0 native
unit against a router quote of 100 token-units (18 decimals). -/
def scenario1Env : NativeSwapEnv :=
  { balance := 10 ^ 18
    tokenDetails := some ("TKN", 18, "Token")
    quoteOut := some (100 * 10 ^ 18)
    gasEstimate := some 210000
    submitTx := some "0xscenario1"
    receiptStatus := 1 }

def scenario1Address : String := "0x00000000000000000000000000000000000000aa"

/-- C1: every swap-transaction submission of the pipeline (all three
shapes) carries `amountOutMin = amountOut - floor(amountOut * slippageBps /
10000)` with `slippageBps = floor(slippagePercent * 100)`; in particular
the native→token scenario with a quote of 100 token-units and 1% slippage
submits `amountOutMin = 99 * 10^18`, i.e. 99.0 token-units. -/
theorem amountOutMin_slippage_formula
    (envN : NativeSwapEnv) (envT envTT : TokenSwapEnv)
    (ta amN amT amTT : String) (slN slT slTT : ℚ)
    (hslN : 0 ≤ slN) (hslT : 0 ≤ slT) (hslTT : 0 ≤ slTT) :
    (∀ q, envN.quoteOut = some q →
      (swapMonadForToken envN ta amN slN).2.all (fun e =>
        match e with
        | .submitSwap _ m => m == claimedAmountOutMin q slN
        | _ => true) = true) ∧
    (∀ q, envT.quoteOut = some q →
      (swapTokenForMonad envT amT slT).2.all (fun e =>
        match e with
        | .submitSwap _ m => m == claimedAmountOutMin q slT
        | _ => true) = true) ∧
    (∀ q, envTT.quoteOut = some q →
      (swapTokenForToken envTT amTT slTT).2.all (fun e =>
        match e with
        | .submitSwap _ m => m == claimedAmountOutMin q slTT
        | _ => true) = true) ∧
    SwapEvent.submitSwap "0xscenario1" (99 * 10 ^ 18) ∈
      (swapMonadForToken scenario1Env scenario1Address "1.0" 1).2 := by
  have hminN : 0 ≤ ⌊slN * 100⌋ := Int.floor_nonneg.mpr (by positivity)
  have hminT : 0 ≤ ⌊slT * 100⌋ := Int.floor_nonneg.mpr (by positivity)
  have hminTT : 0 ≤ ⌊slTT * 100⌋ := Int.floor_nonneg.mpr (by positivity)
  refine ⟨?_, ?_, ?_, ?_⟩
  · intro q hq
    unfold swapMonadForToken
    cases ha : ethersIsAddress ta
    · simp [ha]
    · rcases hpe : parseEther amN with - | aw
      · simp [ha, hpe]
      · by_cases hb : (envN.balance : Int) < aw
        · simp [ha, hpe, hb]
        · rcases hg : envN.gasEstimate with - | g
          · simp [ha, hpe, hb, hq, hg]
          · rcases hst : envN.submitTx with - | h
            · simp [ha, hpe, hb, hq, hg, hst]
            · by_cases hrc : envN.receiptStatus = 1 <;>
                simp [ha, hpe, hb, hq, hg, hst, hrc, claimedAmountOutMin,
                  tdiv_nonneg_toNat q _ hminN]
  · intro q hq
    unfold swapTokenForMonad
    rcases hfi : envT.fromTokenInfo with - | ⟨d, sym⟩
    · simp [hfi]
    · rcases hpe : parseUnits amT d with - | aw
      · simp [hfi, hpe]
      · by_cases hb : (envT.balance : Int) < aw
        · simp [hfi, hpe, hb]
        · by_cases hal : (envT.allowance : Int) < aw
          · unfold approveToken
            rcases har : envT.approveRead with - | d2
            · simp [hfi, hpe, hb, hal, har]
            · rcases hp2 : parseUnits amT d2 with - | aw2
              · simp [hfi, hpe, hb, hal, har, hp2]
              · rcases hat : envT.approveTx with - | ah
                · simp [hfi, hpe, hb, hal, har, hp2, hat]
                · rcases hg : envT.gasEstimate with - | g
                  · simp [hfi, hpe, hb, hal, har, hp2, hat, hq, hg]
                  · rcases hst : envT.submitTx with - | h
                    · simp [hfi, hpe, hb, hal, har, hp2, hat, hq, hg, hst]
                    · simp [hfi, hpe, hb, hal, har, hp2, hat, hq, hg, hst,
                        claimedAmountOutMin, tdiv_nonneg_toNat q _ hminT]
          · rcases hg : envT.gasEstimate with - | g
            · simp [hfi, hpe, hb, hal, hq, hg]
            · rcases hst : envT.submitTx with - | h
              · simp [hfi, hpe, hb, hal, hq, hg, hst]
              · simp [hfi, hpe, hb, hal, hq, hg, hst, claimedAmountOutMin,
                  tdiv_nonneg_toNat q _ hminT]
  · intro q hq
    unfold swapTokenForToken
    rcases hfi : envTT.fromTokenInfo with - | ⟨d, sym⟩
    · simp [hfi]
    · rcases hpe : parseUnits amTT d with - | aw
      · simp [hfi, hpe]
      · rcases hti : envTT.toTokenInfo with - | ⟨d2, sym2⟩
        · simp [hfi, hpe, hti]
        · by_cases hb : (envTT.balance : Int) < aw
          · simp [hfi, hpe, hti, hb]
          · by_cases hal : (envTT.allowance : Int) < aw
            · unfold approveToken
              rcases har : envTT.approveRead with - | d3
              · simp [hfi, hpe, hti, hb, hal, har]
              · rcases hp2 : parseUnits amTT d3 with - | aw2
                · simp [hfi, hpe, hti, hb, hal, har, hp2]
                · rcases hat : envTT.approveTx with - | ah
                  · simp [hfi, hpe, hti, hb, hal, har, hp2, hat]
                  · rcases hg : envTT.gasEstimate with - | g
                    · simp [hfi, hpe, hti, hb, hal, har, hp2, hat, hq, hg]
                    · rcases hst : envTT.submitTx with - | h
                      · simp [hfi, hpe, hti, hb, hal, har, hp2, hat, hq, hg, hst]
                      · simp [hfi, hpe, hti, hb, hal, har, hp2, hat, hq, hg, hst,
                          claimedAmountOutMin, tdiv_nonneg_toNat q _ hminTT]
            · rcases hg : envTT.gasEstimate with - | g
              · simp [hfi, hpe, hti, hb, hal, hq, hg]
              · rcases hst : envTT.submitTx with - | h
                · simp [hfi, hpe, hti, hb, hal, hq, hg, hst]
                · simp [hfi, hpe, hti, hb, hal, hq, hg, hst, claimedAmountOutMin,
                    tdiv_nonneg_toNat q _ hminTT]
  · have hfloor : ⌊(1 : ℚ) * 100⌋ = (100 : Int) := by norm_num
    have ha : ethersIsAddress scenario1Address = true := by decide
    have hpe : parseEther "1.0" = some ((10 : Int) ^ 18) := by decide
    unfold swapMonadForToken
    rw [ha]
    simp only [scenario1Env, scenario1Address, hpe, hfloor]
    norm_num
    decide

/-- A fully healthy token-swap environment used to instantiate theorems. -/
def sampleTokenEnv : TokenSwapEnv :=
  { fromTokenInfo := some (18, "TKA")
    toTokenInfo := some (18, "TKB")
    balance := 5 * 10 ^ 18
    allowance := 0
    approveRead := some 18
    approveTx := some "0xapprove"
    quoteOut := some (100 * 10 ^ 18)
    gasEstimate := some 210000
    submitTx := some "0xswap"
    receiptStatus := 1
    blockNumber := 7 }

def sampleTokenEnvNoGas : TokenSwapEnv := { sampleTokenEnv with gasEstimate := none }

def sampleNativeEnvNoGas : NativeSwapEnv := { scenario1Env with gasEstimate := none }

theorem amountOutMin_slippage_formula_witness :
    (0 : ℚ) ≤ 1 ∧
    SwapEvent.submitSwap "0xscenario1" (99 * 10 ^ 18) ∈
      (swapMonadForToken scenario1Env scenario1Address "1.0" 1).2 :=
  ⟨by norm_num,
    (amountOutMin_slippage_formula scenario1Env sampleTokenEnv sampleTokenEnv
        scenario1Address "1.0" "1.0" "1.0" 1 1 1
        (by norm_num) (by norm_num) (by norm_num)).2.2.2⟩

theorem gas_estimation_failure_aborts_witness :
    sampleNativeEnvNoGas.gasEstimate = none ∧
    (swapMonadForToken sampleNativeEnvNoGas scenario1Address "1.0" 1).1 =
      .error .likelyToFail :=
  ⟨rfl,
    (gas_estimation_failure_aborts sampleNativeEnvNoGas sampleTokenEnvNoGas
        sampleTokenEnvNoGas scenario1Address "1.0" "1.0" "1.0" 1 1 1
        rfl rfl rfl).1.2.2 (by decide)⟩

/-- C4: a native→token swap never submits an approve transaction; a
token-leg swap that reaches the allowance check submits no approve when the
allowance already covers the input amount, and exactly one approve (whose
submission succeeds) when the allowance is strictly below the input
amount. -/
theorem approve_submission_count
    (envN : NativeSwapEnv) (envT envTT : TokenSwapEnv)
    (ta amN amT amTT : String) (slN slT slTT : ℚ) :
    ((swapMonadForToken envN ta amN slN).2.countP isApproveSubmission = 0) ∧
    (∀ d sym aw, envT.fromTokenInfo = some (d, sym) →
      parseUnits amT d = some aw → ¬ (envT.balance : Int) < aw →
      ((¬ (envT.allowance : Int) < aw →
          (swapTokenForMonad envT amT slT).2.countP isApproveSubmission = 0) ∧
       ((envT.allowance : Int) < aw →
        ∀ d2 aw2 ah, envT.approveRead = some d2 → parseUnits amT d2 = some aw2 →
          envT.approveTx = some ah →
          (swapTokenForMonad envT amT slT).2.countP isApproveSubmission = 1))) ∧
    (∀ d sym d2 sym2 aw, envTT.fromTokenInfo = some (d, sym) →
      envTT.toTokenInfo = some (d2, sym2) →
      parseUnits amTT d = some aw → ¬ (envTT.balance : Int) < aw →
      ((¬ (envTT.allowance : Int) < aw →
          (swapTokenForToken envTT amTT slTT).2.countP isApproveSubmission = 0) ∧
       ((envTT.allowance : Int) < aw →
        ∀ d3 aw2 ah, envTT.approveRead = some d3 → parseUnits amTT d3 = some aw2 →
          envTT.approveTx = some ah →
          (swapTokenForToken envTT amTT slTT).2.countP isApproveSubmission = 1))) := by
  refine ⟨?_, ?_, ?_⟩
  · unfold swapMonadForToken
    cases ha : ethersIsAddress ta
    · simp [ha, isApproveSubmission]
    · rcases hpe : parseEther amN with - | aw
      · simp [ha, hpe, isApproveSubmission]
      · by_cases hb : (envN.balance : Int) < aw
        · simp [ha, hpe, hb, isApproveSubmission]
        · rcases hq : envN.quoteOut with - | q
          · simp [ha, hpe, hb, hq, isApproveSubmission]
          · rcases hg : envN.gasEstimate with - | g
            · simp [ha, hpe, hb, hq, hg, isApproveSubmission]
            · rcases hst : envN.submitTx with - | h
              · simp [ha, hpe, hb, hq, hg, hst, isApproveSubmission]
              · by_cases hrc : envN.receiptStatus = 1 <;>
                  simp [ha, hpe, hb, hq, hg, hst, hrc, isApproveSubmission]
  · intro d sym aw hfi hpe hb
    constructor
    · intro hal
      unfold swapTokenForMonad
      rcases hq : envT.quoteOut with - | q
      · simp [hfi, hpe, hb, hal, hq, isApproveSubmission]
      · rcases hg : envT.gasEstimate with - | g
        · simp [hfi, hpe, hb, hal, hq, hg, isApproveSubmission]
        · rcases hst : envT.submitTx with - | h
          · simp [hfi, hpe, hb, hal, hq, hg, hst, isApproveSubmission]
          · simp [hfi, hpe, hb, hal, hq, hg, hst, isApproveSubmission]
    · intro hal d2 aw2 ah har hp2 hat
      unfold swapTokenForMonad approveToken
      rcases hq : envT.quoteOut with - | q
      · simp [hfi, hpe, hb, hal, har, hp2, hat, hq, isApproveSubmission]
      · rcases hg : envT.gasEstimate with - | g
        · simp [hfi, hpe, hb, hal, har, hp2, hat, hq, hg, isApproveSubmission]
        · rcases hst : envT.submitTx with - | h
          · simp [hfi, hpe, hb, hal, har, hp2, hat, hq, hg, hst, isApproveSubmission]
          · simp [hfi, hpe, hb, hal, har, hp2, hat, hq, hg, hst, isApproveSubmission]
  · intro d sym d2 sym2 aw hfi hti hpe hb
    constructor
    · intro hal
      unfold swapTokenForToken
      rcases hq : envTT.quoteOut with - | q
      · simp [hfi, hti, hpe, hb, hal, hq, isApproveSubmission]
      · rcases hg : envTT.gasEstimate with - | g
        · simp [hfi, hti, hpe, hb, hal, hq, hg, isApproveSubmission]
        · rcases hst : envTT.submitTx with - | h
          · simp [hfi, hti, hpe, hb, hal, hq, hg, hst, isApproveSubmission]
          · simp [hfi, hti, hpe, hb, hal, hq, hg, hst, isApproveSubmission]
    · intro hal d3 aw2 ah har hp2 hat
      unfold swapTokenForToken approveToken
      rcases hq : envTT.quoteOut with - | q
      · simp [hfi, hti, hpe, hb, hal, har, hp2, hat, hq, isApproveSubmission]
      · rcases hg : envTT.gasEstimate with - | g
        · simp [hfi, hti, hpe, hb, hal, har, hp2, hat, hq, hg, isApproveSubmission]
        · rcases hst : envTT.submitTx with - | h
          · simp [hfi, hti, hpe, hb, hal, har, hp2, hat, hq, hg, hst, isApproveSubmission]
          · simp [hfi, hti, hpe, hb, hal, har, hp2, hat, hq, hg, hst, isApproveSubmission]

/-- A token-swap environment whose allowance already covers the input. -/
def sampleTokenEnvAllowed : TokenSwapEnv := { sampleTokenEnv with allowance := 5 * 10 ^ 18 }

theorem approve_submission_count_witness :
    (swapTokenForMonad sampleTokenEnv "1.0" 1).2.countP isApproveSubmission = 1 ∧
    (swapTokenForMonad sampleTokenEnvAllowed "1.0" 1).2.countP isApproveSubmission = 0 ∧
    (swapMonadForToken scenario1Env scenario1Address "1.0" 1).2.countP
      isApproveSubmission = 0 :=
  ⟨((approve_submission_count scenario1Env sampleTokenEnv sampleTokenEnv
        scenario1Address "1.0" "1.0" "1.0" 1 1 1).2.1 18 "TKA" ((10 : Int) ^ 18)
        rfl (by decide) (by decide)).2 (by decide) 18 ((10 : Int) ^ 18) "0xapprove"
        rfl (by decide) rfl,
   ((approve_submission_count scenario1Env sampleTokenEnvAllowed sampleTokenEnv
        scenario1Address "1.0" "1.0" "1.0" 1 1 1).2.1 18 "TKA" ((10 : Int) ^ 18)
        rfl (by decide) (by decide)).1 (by decide),
   (approve_submission_count scenario1Env sampleTokenEnv sampleTokenEnv
        scenario1Address "1.0" "1.0" "1.0" 1 1 1).1⟩

/-- C3 counterexample: an amount of "0" (and likewise "-1") parses
successfully, passes the balance check, and drives the native swap past
INIT into the balance network call and the rest of the pipeline — no
invalid-amount error is raised for non-positive amounts. -/
theorem nonpositive_amount_not_rejected_at_init :
    parseEther "0" = some 0 ∧
    SwapEvent.callGetBalance ∈ (swapMonadForToken scenario1Env scenario1Address "0" 1).2 ∧
    (swapMonadForToken scenario1Env scenario1Address "0" 1).1.isOk = true ∧
    SwapEvent.callGetBalance ∈ (swapMonadForToken scenario1Env scenario1Address "-1" 1).2 ∧
    (swapMonadForToken scenario1Env scenario1Address "-1" 1).1.isOk = true := by
  refine ⟨by decide, ?_, ?_, ?_, ?_⟩ <;> decide

/-- C3 amended: only a malformed amount string is rejected at the INIT
step: the native shape then aborts with the invalid-amount error before
any network call (its trace holds only the INIT progress report), and a
token-leg shape aborts immediately after the token-metadata read that the
source performs before parsing, with no balance read, quote, estimation or
submission.  Amounts that parse — zero and negative included — are not
rejected at INIT (see the counterexample). -/
theorem malformed_amount_rejected_at_init
    (envN : NativeSwapEnv) (envT envTT : TokenSwapEnv) (ta am : String) (sl : ℚ)
    (hta : ethersIsAddress ta = true) (hpe : parseEther am = none) :
    ((swapMonadForToken envN ta am sl).1 = .error .invalidAmountFormat ∧
      (swapMonadForToken envN ta am sl).2 = [.progress "INIT"]) ∧
    (∀ d sym, envT.fromTokenInfo = some (d, sym) → parseUnits am d = none →
      (swapTokenForMonad envT am sl).1 = .error .invalidAmountFormat ∧
      (swapTokenForMonad envT am sl).2 = [.callTokenRead]) ∧
    (∀ d sym, envTT.fromTokenInfo = some (d, sym) → parseUnits am d = none →
      (swapTokenForToken envTT am sl).1 = .error .invalidAmountFormat ∧
      (swapTokenForToken envTT am sl).2 = [.callTokenRead]) := by
  refine ⟨?_, ?_, ?_⟩
  · unfold swapMonadForToken
    rw [hta]
    simp [parseEther] at hpe
    simp [parseEther, hpe]
  · intro d sym hfi hp
    unfold swapTokenForMonad
    simp [hfi, hp]
  · intro d sym hfi hp
    unfold swapTokenForToken
    simp [hfi, hp]

theorem malformed_amount_rejected_at_init_witness :
    ethersIsAddress scenario1Address = true ∧
    parseEther "abc" = none ∧
    (swapMonadForToken scenario1Env scenario1Address "abc" 1).1 =
      .error .invalidAmountFormat :=
  ⟨by decide, by decide,
    (malformed_amount_rejected_at_init scenario1Env sampleTokenEnv sampleTokenEnv
        scenario1Address "abc" 1 (by decide) (by decide)).1.1⟩

/-- A probe that reports a zero balance for the configured WETH token and
fails for every other contract. -/
def zeroBalanceProbe : String → Option TokenProbe := fun a =>
  if a = "0xB5a30b0FDc5EA94A52fDc42e3E9760Cb8449Fb37" then
    some { balance := 0, decimals := 18, symbol := "WETH", name := "Wrapped Ethereum" }
  else none

/-- A scan environment in which the indexed tier is unavailable and the
direct scanner fails, so the last-resort configured-token probe answers. -/
def lastResortScanEnv : ScanEnv :=
  { walletAddress := "0x00000000000000000000000000000000000000bb"
    currentBlock := 100
    logs := []
    likely := fun _ => false
    probe := fun _ => none
    blockVision := none
    directScanOk := false
    lastResortProbe := zeroBalanceProbe }

theorem parseFloatQ_zero_string : parseFloatQ "0.0" = some 0 := by
  have h : parseFloatQ "0.0" =
      some ((digitsToNat ['0'] : ℚ) + (digitsToNat ['0'] : ℚ) / (10 ^ 1 : ℚ)) := rfl
  rw [h, show digitsToNat ['0'] = 0 from by decide]
  norm_num

/-- C5 counterexample: with `includeZeroBalances = false`, a scan that
falls through to the last-resort configured-token probe returns an entry
whose formatted balance is "0.0", which parses to 0 — the zero-balance
filter is not applied on that tier. -/
theorem scan_zero_balance_counterexample :
    (scanAllTokens lastResortScanEnv false).1.map (·.formatted) = ["0.0"] ∧
    (scanAllTokens lastResortScanEnv false).2 = [.lastResortScan] ∧
    parseFloatQ "0.0" = some 0 :=
  ⟨by decide, by decide, parseFloatQ_zero_string⟩

theorem scan_direct_result_filtered (env : ScanEnv)
    (hbv : env.blockVision = none ∨ env.blockVision = some [])
    (hok : env.directScanOk = true) :
    ∃ l ev, scanAllTokens env false = (List.filter balancePositive l, ev) := by
  rcases hbv with h | h <;>
  · unfold scanAllTokens scanAllTokens.scanAllTokensDirect
    simp only [h, hok, List.length_nil, gt_iff_lt, lt_self_iff_false, if_false,
      eq_self_iff_true, if_true]
    repeat' split
    all_goals first
      | exact ⟨_, _, rfl⟩
      | simp_all

/-- C5 amended: the zero-balance filter is applied only on the direct
scanner path: when the indexed tier falls through and the direct scanner is
available, every entry returned by a zero-balance-exclusive scan parses to
a strictly positive balance; the indexed-lookup result and the last-resort
configured-token probe result are returned without this filtering (see the
counterexample for the latter). -/
theorem direct_scan_drops_zero_balances (env : ScanEnv)
    (hbv : env.blockVision = none ∨ env.blockVision = some [])
    (hok : env.directScanOk = true) :
    ∀ t ∈ (scanAllTokens env false).1,
      ∃ q, parseFloatQ t.formatted = some q ∧ 0 < q := by
  intro t ht
  obtain ⟨l, ev, hres⟩ := scan_direct_result_filtered env hbv hok
  rw [hres] at ht
  have hpos : balancePositive t = true := (List.mem_filter.mp ht).2
  unfold balancePositive at hpos
  rcases hq : parseFloatQ t.formatted with - | q
  · rw [hq] at hpos; cases hpos
  · rw [hq] at hpos
    exact ⟨q, rfl, of_decide_eq_true hpos⟩

/-- The scanned record of the configured WETH token with balance 1.0. -/
def wethEntry : TokenDetails :=
  { address := "0xB5a30b0FDc5EA94A52fDc42e3E9760Cb8449Fb37"
    symbol := "WETH", name := "Wrapped Ethereum", decimals := 18
    raw := 10 ^ 18, formatted := formatUnits (10 ^ 18) 18 }

/-- A probe reporting a positive WETH balance, failing elsewhere. -/
def positiveBalanceProbe : String → Option TokenProbe := fun a =>
  if a = "0xB5a30b0FDc5EA94A52fDc42e3E9760Cb8449Fb37" then
    some { balance := 10 ^ 18, decimals := 18, symbol := "WETH", name := "Wrapped Ethereum" }
  else none

/-- A scan environment where the direct scanner works and one configured
token has a positive balance. -/
def directScanEnv : ScanEnv :=
  { walletAddress := "0x00000000000000000000000000000000000000bb"
    currentBlock := 100
    logs := []
    likely := fun _ => false
    probe := positiveBalanceProbe
    blockVision := none
    directScanOk := true
    lastResortProbe := fun _ => none }

theorem parseFloatQ_one_string : parseFloatQ "1.0" = some 1 := by
  have h : parseFloatQ "1.0" =
      some ((digitsToNat ['1'] : ℚ) + (digitsToNat ['0'] : ℚ) / (10 ^ 1 : ℚ)) := rfl
  rw [h, show digitsToNat ['1'] = 1 from by decide,
    show digitsToNat ['0'] = 0 from by decide]
  norm_num

theorem balancePositive_wethEntry : balancePositive wethEntry = true := by
  unfold balancePositive wethEntry
  rw [show formatUnits (10 ^ 18) 18 = "1.0" from by decide, parseFloatQ_one_string]
  norm_num

theorem directScanEnv_result : (scanAllTokens directScanEnv false).1 = [wethEntry] := by
  have h1 : (scanAllTokens directScanEnv false).1 =
      List.filter balancePositive [wethEntry] := rfl
  rw [h1, List.filter, balancePositive_wethEntry]
  rfl

theorem direct_scan_drops_zero_balances_witness :
    ∃ q, parseFloatQ (formatUnits (10 ^ 18) 18) = some q ∧ 0 < q :=
  direct_scan_drops_zero_balances directScanEnv (Or.inl rfl) rfl wethEntry
    (by rw [directScanEnv_result]; exact List.mem_singleton.mpr rfl)

theorem mem_foldl_insertAbsent (l acc : List String) (a : String) :
    a ∈ l.foldl insertAbsent acc ↔ a ∈ acc ∨ a ∈ l := by
  induction l generalizing acc with
  | nil => simp
  | cons x xs ih =>
    rw [List.foldl_cons, ih]
    unfold insertAbsent
    by_cases hx : x ∈ acc <;> simp [hx] <;> aesop

/-- C6: the transaction-log tier runs exactly when the combined tier-2
result has fewer than 5 tokens or a zero-balance-inclusive scan was
requested; its `getLogs` request covers the window from
`max 1 (currentBlock - 2000)` and filters on the Transfer event topic; a
collected contract is included only when its `decimals()`/`symbol()` probe
succeeds and only when some Transfer log it emitted has the wallet as
sender or recipient. -/
theorem txlog_tier_exact (env : ScanEnv) (includeZero : Bool)
    (hbv : env.blockVision = none ∨ env.blockVision = some [])
    (hok : env.directScanOk = true) :
    (ScanEvent.txLogScan (scanRecentTransactions env 2000).2 ∈
        (scanAllTokens env includeZero).2 ↔
      ((scanCommonTokens env.probe (monadNetwork.tokens.map (·.address)) ++
          scanCommonTokens env.probe
            (popularTokens.filter (fun addr =>
              ¬ (monadNetwork.tokens.map (·.address)).any
                (fun known => lowerStr known = lowerStr addr)))).length < 5 ∨
        includeZero = true)) ∧
    ((scanRecentTransactions env 2000).2 =
      { fromBlock := max 1 (env.currentBlock - 2000)
        topic0 := ethersId transferEventSignature }) ∧
    (∀ t ∈ (scanRecentTransactions env 2000).1,
      env.likely t.address = true ∧
      ∃ log ∈ env.logs, lowerStr log.address = t.address ∧
        3 ≤ log.topics.length ∧
        ∃ f tt, addressFromTopic (log.topics.getD 1 "") = some f ∧
          addressFromTopic (log.topics.getD 2 "") = some tt ∧
          (lowerStr f = lowerStr env.walletAddress ∨
           lowerStr tt = lowerStr env.walletAddress)) := by
  refine ⟨?_, rfl, ?_⟩
  · rcases hsc : scanRecentTransactions env 2000 with ⟨txT, req⟩
    rcases hbv with h | h <;>
    · unfold scanAllTokens scanAllTokens.scanAllTokensDirect
      simp only [h, hok, hsc, List.length_nil, gt_iff_lt, lt_self_iff_false, if_false,
        eq_self_iff_true, if_true]
      split
      case isTrue hc => simpa using hc
      case isFalse hc => simpa using hc
  · intro t ht
    unfold scanRecentTransactions at ht
    simp only [List.mem_filterMap] at ht
    obtain ⟨a, ha, hdet⟩ := ht
    by_cases hl : isLikelyToken env a = true
    case neg =>
      rw [if_neg hl] at hdet
      cases hdet
    case pos =>
      rw [if_pos hl] at hdet
      have hta : t.address = a := by
        unfold getTokenDetails at hdet
        rcases hp : env.probe a with - | p
        · rw [hp] at hdet; cases hdet
        · rw [hp] at hdet; cases hdet; rfl
      constructor
      · rw [hta]; exact hl
      · rw [mem_foldl_insertAbsent] at ha
        simp only [List.not_mem_nil, false_or] at ha
        simp only [List.mem_filterMap] at ha
        obtain ⟨log, hlog, hcollect⟩ := ha
        refine ⟨log, hlog, ?_⟩
        by_cases hlen : 3 ≤ log.topics.length
        · rw [if_pos hlen] at hcollect
          rcases hf : addressFromTopic (log.topics.getD 1 "") with - | f
          · rw [hf] at hcollect; cases hcollect
          · rcases htt : addressFromTopic (log.topics.getD 2 "") with - | tt
            · rw [hf, htt] at hcollect; cases hcollect
            · rw [hf, htt] at hcollect
              change (if lowerStr f = lowerStr env.walletAddress ∨
                  lowerStr tt = lowerStr env.walletAddress then
                  some (lowerStr log.address) else none) = some a at hcollect
              by_cases hinv : lowerStr f = lowerStr env.walletAddress ∨
                  lowerStr tt = lowerStr env.walletAddress
              · rw [if_pos hinv] at hcollect
                cases hcollect
                exact ⟨hta.symm, hlen, f, tt, rfl, rfl, hinv⟩
              · rw [if_neg hinv] at hcollect
                cases hcollect
        · rw [if_neg hlen] at hcollect
          cases hcollect

theorem txlog_tier_exact_witness :
    ScanEvent.txLogScan (scanRecentTransactions directScanEnv 2000).2 ∈
      (scanAllTokens directScanEnv false).2 :=
  (txlog_tier_exact directScanEnv false (Or.inl rfl) rfl).1.mpr (Or.inl (by decide))

/-- C9: a private key that cannot construct a signer makes `importWallet`
fail with the invalid-key error, and the wallet map, the per-user
wallet-id list and the owner map are all returned unchanged: every map
write of the source happens after the signer construction that throws. -/
theorem importWallet_invalid_key_stores_nothing
    (validate : String → Option String) (encrypt : String → String)
    (newWalletId : String) (st : WalletManagerState)
    (userId privateKey walletName : String)
    (hk : validate privateKey = none) :
    importWallet validate encrypt newWalletId st userId privateKey walletName =
      (st, .error "Invalid private key") := by
  unfold importWallet
  rw [hk]

/-- Modelled from the `new ethers.Wallet(privateKey)` validation: key
material must be 0x-prefixed 32-byte hex; the derived address (a keccak
image, external to the repository) is a fixed placeholder. -/
def hexKeyValidate : String → Option String := fun k =>
  if jsStartsWith k.data ['0', 'x'] && k.length == 66 && (k.data.drop 2).all isHexDigit then
    some "0x00000000000000000000000000000000000000cc"
  else none

def emptyWalletState : WalletManagerState :=
  { userWalletIds := [], wallets := [], walletOwners := [] }

theorem importWallet_invalid_key_stores_nothing_witness :
    hexKeyValidate "0x1234" = none ∧
    importWallet hexKeyValidate id "wallet-1" emptyWalletState "user1" "0x1234"
        "Imported Wallet" = (emptyWalletState, .error "Invalid private key") :=
  ⟨by decide,
    importWallet_invalid_key_stores_nothing hexKeyValidate id "wallet-1"
      emptyWalletState "user1" "0x1234" "Imported Wallet" (by decide)⟩

/-! ### Round-trip of the private-key encryption -/

theorem hexDigitVal_hexDigitChar : ∀ n, n < 16 → hexDigitVal (hexDigitChar n) = some n := by
  decide

theorem hexDigitChar_ne_colon : ∀ n, n < 16 → hexDigitChar n ≠ ':' := by decide

theorem hexPairToByte_byteToHex (b : Byte) :
    hexPairToByte (hexDigitChar (b.val / 16)) (hexDigitChar (b.val % 16)) = some b := by
  have hv : b.val < 256 := b.isLt
  unfold hexPairToByte
  simp only [hexDigitVal_hexDigitChar (b.val / 16) (by omega),
    hexDigitVal_hexDigitChar (b.val % 16) (by omega)]
  rw [dif_pos (by omega : b.val / 16 * 16 + b.val % 16 < 256)]
  exact congrArg some (Fin.ext (show b.val / 16 * 16 + b.val % 16 = b.val by omega))

theorem hexToBytes_bytesToHex (l : List Byte) : hexToBytes (bytesToHex l) = some l := by
  induction l with
  | nil => rfl
  | cons b bs ih =>
    have hshape : bytesToHex (b :: bs) =
        hexDigitChar (b.val / 16) :: hexDigitChar (b.val % 16) :: bytesToHex bs := by
      simp [bytesToHex, byteToHex]
    rw [hshape]
    unfold hexToBytes
    simp only [hexPairToByteByteToHexAux b, ih]
where
  hexPairToByteByteToHexAux (b : Byte) :
      hexPairToByte (hexDigitChar (b.val / 16)) (hexDigitChar (b.val % 16)) = some b :=
    hexPairToByte_byteToHex b

theorem colon_not_mem_bytesToHex (l : List Byte) : ':' ∉ bytesToHex l := by
  intro hmem
  unfold bytesToHex at hmem
  rcases List.mem_flatten.mp hmem with ⟨pair, hpair, hc⟩
  rcases List.mem_map.mp hpair with ⟨b, -, rfl⟩
  have hv : b.val < 256 := b.isLt
  unfold byteToHex at hc
  rcases List.mem_cons.mp hc with h | h
  · exact hexDigitChar_ne_colon (b.val / 16) (by omega) h.symm
  · rcases List.mem_cons.mp h with h2 | h2
    · exact hexDigitChar_ne_colon (b.val % 16) (by omega) h2.symm
    · exact absurd h2 (List.not_mem_nil ':')

theorem splitOnChar_ne_nil (sep : Char) (l : List Char) : splitOnChar sep l ≠ [] := by
  induction l with
  | nil => simp [splitOnChar]
  | cons c cs ih =>
    unfold splitOnChar
    rcases h : splitOnChar sep cs with - | ⟨p, ps⟩
    · simp
    · by_cases hc : c = sep <;> simp [hc]

theorem splitOnChar_cons (sep c : Char) (cs : List Char) :
    splitOnChar sep (c :: cs) =
      match splitOnChar sep cs with
      | [] => [[c]]
      | p :: ps => if c = sep then [] :: p :: ps else (c :: p) :: ps := rfl

theorem splitOnChar_no_sep (sep : Char) (l : List Char) (h : sep ∉ l) :
    splitOnChar sep l = [l] := by
  induction l with
  | nil => rfl
  | cons c cs ih =>
    have hc : ¬ c = sep := fun he => h (he ▸ List.mem_cons_self c cs)
    have hcs : sep ∉ cs := fun hm => h (List.mem_cons_of_mem c hm)
    rw [splitOnChar_cons, ih hcs]
    simp [hc]

theorem splitOnChar_append (sep : Char) (a b : List Char) (ha : sep ∉ a) :
    splitOnChar sep (a ++ sep :: b) = a :: splitOnChar sep b := by
  induction a with
  | nil =>
    rcases hsp : splitOnChar sep b with - | ⟨p, ps⟩
    · exact absurd hsp (splitOnChar_ne_nil sep b)
    · rw [List.nil_append, splitOnChar_cons, hsp]
      simp
  | cons c cs ih =>
    have hc : ¬ c = sep := fun he => ha (he ▸ List.mem_cons_self c cs)
    have hcs : sep ∉ cs := fun hm => ha (List.mem_cons_of_mem c hm)
    rw [List.cons_append, splitOnChar_cons, ih hcs]
    simp [hc]

theorem xorByte_cancel (a b : Byte) : xorByte a (xorByte a b) = b := by
  apply Fin.ext
  show a.val ^^^ (a.val ^^^ b.val) = b.val
  rw [← Nat.xor_assoc, Nat.xor_self, Nat.zero_xor]

theorem xorBytes_length (a b : List Byte) :
    (xorBytes a b).length = min a.length b.length := by
  simp [xorBytes]

theorem xorBytes_cancel (a b : List Byte) (h : a.length = b.length) :
    xorBytes a (xorBytes a b) = b := by
  induction a generalizing b with
  | nil =>
    cases b
    · rfl
    · cases h
  | cons x xs ih =>
    cases b with
    | nil => cases h
    | cons y ys =>
      simp only [xorBytes, List.zipWith_cons_cons, xorByte_cancel]
      have := ih ys (by simpa using h)
      simpa [xorBytes] using this

theorem chunk16Go_succ_cons (f : Nat) (c : Byte) (cs : List Byte) :
    chunk16Go (f + 1) (c :: cs) =
      (c :: cs).take 16 :: chunk16Go f ((c :: cs).drop 16) := rfl

theorem chunk16Go_flatten :
    ∀ fuel l, l.length ≤ fuel → (chunk16Go fuel l).flatten = l := by
  intro fuel
  induction fuel with
  | zero =>
    intro l hl
    rw [List.length_eq_zero.mp (Nat.le_zero.mp hl)]
    rfl
  | succ f ih =>
    intro l hl
    cases l with
    | nil => rfl
    | cons c cs =>
      simp only [List.length_cons] at hl
      rw [chunk16Go_succ_cons, List.flatten_cons,
        ih _ (by simp only [List.length_drop, List.length_cons]; omega)]
      exact List.take_append_drop 16 (c :: cs)

theorem chunk16_flatten (l : List Byte) : (chunk16 l).flatten = l :=
  chunk16Go_flatten l.length l le_rfl

theorem chunk16Go_blocks_len :
    ∀ fuel l, l.length ≤ fuel → l.length % 16 = 0 →
      ∀ b ∈ chunk16Go fuel l, b.length = 16 := by
  intro fuel
  induction fuel with
  | zero =>
    intro l hl _ b hb
    rw [List.length_eq_zero.mp (Nat.le_zero.mp hl)] at hb
    cases hb
  | succ f ih =>
    intro l hl hmod b hb
    cases l with
    | nil => cases hb
    | cons c cs =>
      rw [chunk16Go_succ_cons] at hb
      simp only [List.length_cons] at hl hmod
      have hlen : 16 ≤ cs.length + 1 := by omega
      rcases List.mem_cons.mp hb with rfl | hb2
      · simp only [List.length_take, List.length_cons]
        omega
      · exact ih _ (by simp only [List.length_drop, List.length_cons]; omega)
          (by simp only [List.length_drop, List.length_cons]; omega) b hb2

theorem chunk16_blocks_len (l : List Byte) (h : l.length % 16 = 0) :
    ∀ b ∈ chunk16 l, b.length = 16 :=
  chunk16Go_blocks_len l.length l le_rfl h

theorem chunk16Go_of_flatten :
    ∀ bs : List (List Byte), (∀ b ∈ bs, b.length = 16) →
      ∀ fuel, bs.flatten.length ≤ fuel → chunk16Go fuel bs.flatten = bs := by
  intro bs
  induction bs with
  | nil =>
    intro _ fuel _
    cases fuel <;> rfl
  | cons b rest ih =>
    intro hall fuel hfuel
    have hb : b.length = 16 := hall b (List.mem_cons_self b rest)
    have hbne : b ≠ [] := by intro he; rw [he] at hb; cases hb
    rcases b with - | ⟨c, cs⟩
    · exact absurd rfl hbne
    · rw [List.flatten_cons] at hfuel ⊢
      cases fuel with
      | zero =>
        exfalso
        simp only [List.length_append, List.length_cons] at hfuel
        omega
      | succ f =>
        have hb16 : (c :: cs).length = 16 := hb
        have htake : ((c :: cs) ++ rest.flatten).take 16 = c :: cs := by
          have h1 := List.take_left (c :: cs) rest.flatten
          rw [hb16] at h1
          exact h1
        have hdrop : ((c :: cs) ++ rest.flatten).drop 16 = rest.flatten := by
          have h1 := List.drop_left (c :: cs) rest.flatten
          rw [hb16] at h1
          exact h1
        have heq : chunk16Go (f + 1) ((c :: cs) ++ rest.flatten) =
            ((c :: cs) ++ rest.flatten).take 16 ::
              chunk16Go f (((c :: cs) ++ rest.flatten).drop 16) := rfl
        rw [heq, htake, hdrop,
          ih (fun x hx => hall x (List.mem_cons_of_mem _ hx)) f (by
            simp only [List.length_append, List.length_cons] at hfuel ⊢
            omega)]

theorem chunk16_of_flatten (bs : List (List Byte)) (h : ∀ b ∈ bs, b.length = 16) :
    chunk16 bs.flatten = bs :=
  chunk16Go_of_flatten bs h bs.flatten.length le_rfl

theorem pkcs7Pad_length_mod (l : List Byte) : (pkcs7Pad l).length % 16 = 0 := by
  unfold pkcs7Pad
  simp only [List.length_append, List.length_replicate]
  omega

theorem pkcs7Unpad_append_replicate (l : List Byte) (p : Nat) (x : Byte)
    (hx : x.val = p) (hp1 : 1 ≤ p) (hp16 : p ≤ 16) :
    pkcs7Unpad (l ++ List.replicate p x) = some l := by
  unfold pkcs7Unpad
  have hlast : (l ++ List.replicate p x).getLast? = some x := by
    rw [List.getLast?_append, List.getLast?_replicate]
    rw [if_neg (by omega : ¬ p = 0)]
    rfl
  simp only [hlast]
  have hlen : (l ++ List.replicate p x).length = l.length + p := by simp
  have hsub : (l ++ List.replicate p x).length - x.val = l.length := by
    rw [hlen, hx]; omega
  have hdrop : (l ++ List.replicate p x).drop l.length = List.replicate p x :=
    List.drop_left l (List.replicate p x)
  have htake : (l ++ List.replicate p x).take l.length = l :=
    List.take_left l (List.replicate p x)
  rw [if_pos]
  · rw [hsub, htake]
  · refine ⟨by omega, by omega, by rw [hlen, hx]; omega, ?_⟩
    rw [hsub, hdrop]
    simp only [List.all_eq_true]
    intro b hb
    rw [List.eq_of_mem_replicate hb, hx]
    exact beq_self_eq_true p

theorem pkcs7Unpad_pad (l : List Byte) : pkcs7Unpad (pkcs7Pad l) = some l := by
  unfold pkcs7Pad
  exact pkcs7Unpad_append_replicate l (16 - l.length % 16) _ rfl (by omega) (by omega)

theorem cbcEncBlocks_len (E : List Byte → List Byte)
    (hE : ∀ b, b.length = 16 → (E b).length = 16) :
    ∀ bs prev, prev.length = 16 → (∀ b ∈ bs, b.length = 16) →
      ∀ c ∈ cbcEncBlocks E prev bs, c.length = 16 := by
  intro bs
  induction bs with
  | nil => intro prev _ _ c hc; cases hc
  | cons b rest ih =>
    intro prev hprev hall c hc
    rw [cbcEncBlocks] at hc
    have hb : b.length = 16 := hall b (List.mem_cons_self b rest)
    have hxlen : (xorBytes prev b).length = 16 := by
      rw [xorBytes_length, hprev, hb]; simp
    have hclen : (E (xorBytes prev b)).length = 16 := hE _ hxlen
    rcases List.mem_cons.mp hc with rfl | hc2
    · exact hclen
    · exact ih (E (xorBytes prev b)) hclen
        (fun x hx => hall x (List.mem_cons_of_mem b hx)) c hc2

theorem cbcDecBlocks_cbcEncBlocks (E D : List Byte → List Byte)
    (hE : ∀ b, b.length = 16 → (E b).length = 16)
    (hD : ∀ b, b.length = 16 → D (E b) = b) :
    ∀ bs prev, prev.length = 16 → (∀ b ∈ bs, b.length = 16) →
      cbcDecBlocks D prev (cbcEncBlocks E prev bs) = bs := by
  intro bs
  induction bs with
  | nil => intro prev _ _; rfl
  | cons b rest ih =>
    intro prev hprev hall
    have hb : b.length = 16 := hall b (List.mem_cons_self b rest)
    have hxlen : (xorBytes prev b).length = 16 := by
      rw [xorBytes_length, hprev, hb]; simp
    rw [cbcEncBlocks, cbcDecBlocks, hD _ hxlen,
      xorBytes_cancel prev b (by omega),
      ih (E (xorBytes prev b)) (hE _ hxlen)
        (fun x hx => hall x (List.mem_cons_of_mem b hx))]

/-- C10: for every block-cipher pair `(E, D)` that inverts on 16-byte
blocks (the AES-256 permutation under the derived key), every 16-byte
initialization vector and every plaintext key, decrypting the output of
the wallet store's encryption recovers the key exactly:
`_decryptPrivateKey (_encryptPrivateKey k) = k` — so every key stored by
`generateWallet`/`importWallet` is recoverable by `getWalletDetails`. -/
theorem decryptPrivateKey_encryptPrivateKey (E D : List Byte → List Byte)
    (hE : ∀ b, b.length = 16 → (E b).length = 16)
    (hD : ∀ b, b.length = 16 → D (E b) = b)
    (iv : List Byte) (hiv : iv.length = 16) (k : List Byte) :
    decryptPrivateKeyModel D (encryptPrivateKeyModel E iv k) = some k := by
  unfold encryptPrivateKeyModel decryptPrivateKeyModel
  have hpadlen : (pkcs7Pad k).length % 16 = 0 := pkcs7Pad_length_mod k
  have hblocks : ∀ b ∈ chunk16 (pkcs7Pad k), b.length = 16 :=
    chunk16_blocks_len (pkcs7Pad k) hpadlen
  have hctblocks : ∀ c ∈ cbcEncBlocks E iv (chunk16 (pkcs7Pad k)), c.length = 16 :=
    cbcEncBlocks_len E hE (chunk16 (pkcs7Pad k)) iv hiv hblocks
  rw [splitOnChar_append ':' (bytesToHex iv) _ (colon_not_mem_bytesToHex iv),
    splitOnChar_no_sep ':' _ (colon_not_mem_bytesToHex _)]
  simp only [hexToBytes_bytesToHex]
  rw [if_pos hiv]
  rw [chunk16_of_flatten _ hctblocks,
    cbcDecBlocks_cbcEncBlocks E D hE hD _ iv hiv hblocks,
    chunk16_flatten]
  exact pkcs7Unpad_pad k

theorem decryptPrivateKey_encryptPrivateKey_witness :
    (List.replicate 16 (0 : Byte)).length = 16 ∧
    decryptPrivateKeyModel id
      (encryptPrivateKeyModel id (List.replicate 16 (0 : Byte))
        [(104 : Byte), (105 : Byte)]) = some [(104 : Byte), (105 : Byte)] :=
  ⟨by decide,
    decryptPrivateKey_encryptPrivateKey id id (fun _ h => h) (fun _ _ => rfl)
      (List.replicate 16 (0 : Byte)) (by decide) [(104 : Byte), (105 : Byte)]⟩

end MonadBot
